import Mathlib

/-!
Verification development for `django-popularity` (`popularity/models.py`).

The repository defines a Django model `ViewTracker` with a custom manager
`ViewTrackerManager`.  We embed the store as a list of rows and the manager /
model operations as functions over it.  Timestamps are modelled as integers
(`Int`), the `datetime.now()` default as an explicit `now` argument, and the
Django content-type registry (`ContentType.objects.get_for_model`) as an
abstract function `ctOf : Model → Nat` mapping a model to its content-type id.

Django behaviours relevant here, embedded faithfully:
* `Manager.get(...)` raises `DoesNotExist` on zero matches and
  `MultipleObjectsReturned` on more than one match;
* `Manager.get_or_create(...)` returns `(object, created)`;
* `Model.save()` writes all fields of the in-memory instance; the
  `auto_now=True` option on `last_view` makes every save stamp `last_view`
  with the current time, and `auto_now_add=True` stamps `first_view` once at
  creation;
* combining querysets with `|` produces a queryset whose WHERE clause is the
  disjunction of the conditions of the two operands (no row duplication on a
  single-table query);
* a `QuerySet` exposes no attribute named `limit` (result limiting is done by
  slicing), so an attribute access `.limit` raises `AttributeError`.
-/

namespace Popularity

/-- A `ViewTracker` row: content type id and object id form the composite key
(`unique_together` on content_type and object_id), `first_view` is set on
creation (`auto_now_add`), `last_view` on every save (`auto_now`), and `views`
is the counter (`PositiveIntegerField(default=0)`). -/
structure ViewTracker where
  content_type : Nat
  object_id : Nat
  first_view : Int
  last_view : Int
  views : Nat
deriving Repr, DecidableEq

/-- Errors the embedded Django operations can raise. -/
inductive DjangoError where
  | doesNotExist
  | multipleObjectsReturned
  | attributeError (attr : String)
  | assertionError
deriving Repr, DecidableEq

/-- The persisted table of `ViewTracker` rows. -/
abbrev Store := List ViewTracker

/-- A Django model class, identified abstractly; the content-type registry
maps it to a content-type id. -/
abbrev Model := Nat

/-- The filter `content_type=ct, object_id=oid` on a row. -/
def sameKey (ct oid : Nat) (r : ViewTracker) : Bool :=
  r.content_type == ct && r.object_id == oid

/-- `Manager.get(content_type=ct, object_id=oid)`: `DoesNotExist` on zero
matches, the row on exactly one, `MultipleObjectsReturned` otherwise. -/
def managerGet (st : Store) (ct oid : Nat) : Except DjangoError ViewTracker :=
  match st.filter (sameKey ct oid) with
  | [] => .error .doesNotExist
  | [r] => .ok r
  | _ :: _ :: _ => .error .multipleObjectsReturned

/-- A freshly created row: `views=0` (field default), `first_view` and
`last_view` stamped with the creation time (`auto_now_add` / `auto_now`). -/
def newTracker (ct oid : Nat) (now : Int) : ViewTracker :=
  ⟨ct, oid, now, now, 0⟩

/-- `Manager.get_or_create(content_type=ct, object_id=oid)`: returns the
existing row (`created=False`), or inserts a fresh one (`created=True`). -/
def get_or_create (st : Store) (ct oid : Nat) (now : Int) :
    Except DjangoError ((ViewTracker × Bool) × Store) :=
  match managerGet st ct oid with
  | .ok r => .ok ((r, false), st)
  | .error .doesNotExist => .ok ((newTracker ct oid now, true), st ++ [newTracker ct oid now])
  | .error e => .error e

/-- `ViewTrackerManager.get_for_object(content_object, create)`: `get_or_create`
when `create` is requested, plain `get` otherwise (the source discards the
`created` flag). -/
def get_for_object (st : Store) (ct oid : Nat) (create : Bool) (now : Int) :
    Except DjangoError (ViewTracker × Store) :=
  if create then
    match get_or_create st ct oid now with
    | .ok ((r, _), st') => .ok (r, st')
    | .error e => .error e
  else
    match managerGet st ct oid with
    | .ok r => .ok (r, st)
    | .error e => .error e

/-- `Model.save()`: updates the row with this instance's key, writing every
field from the instance, with `last_view` stamped by `auto_now`. -/
def ViewTracker.save (self : ViewTracker) (st : Store) (now : Int) : Store :=
  st.map fun x =>
    if sameKey self.content_type self.object_id x then { self with last_view := now } else x

/-- `ViewTracker.increment`: `self.views = self.views + 1` on the in-memory
instance, then `self.save()`.  Returns the updated instance and store. -/
def ViewTracker.increment (self : ViewTracker) (st : Store) (now : Int) :
    ViewTracker × Store :=
  let s := { self with views := self.views + 1 }
  ({ s with last_view := now }, s.save st now)

/-- `ViewTracker.add_view_for`: fetch-or-create the tracker for the object,
then increment it. -/
def add_view_for (st : Store) (ct oid : Nat) (now : Int) :
    Except DjangoError (ViewTracker × Store) :=
  match get_for_object st ct oid true now with
  | .ok (vt, st1) => .ok (vt.increment st1 now)
  | .error e => .error e

/-- `ViewTracker.get_views_for`: fetch without creating; `DoesNotExist` is
caught and turned into `0`, any other error propagates.  The store component
records that the call performs no write. -/
def get_views_for (st : Store) (ct oid : Nat) : Except DjangoError (Nat × Store) :=
  match get_for_object st ct oid false 0 with
  | .ok (vt, st') => .ok (vt.views, st')
  | .error .doesNotExist => .ok (0, st)
  | .error e => .error e

/-- `ViewTracker.get_age(refdate)`: `assert refdate >= self.first_view`, then
`refdate - self.first_view`.  A failed `assert` raises `AssertionError`. -/
def ViewTracker.get_age (self : ViewTracker) (refdate : Int) : Except DjangoError Int :=
  if self.first_view ≤ refdate then .ok (refdate - self.first_view)
  else .error .assertionError

/-- `ViewTrackerManager.select_age(refdate)`: annotates each row with an age
column given by the extra-select SQL string built by the source, which is the
subtraction first_view - refdate (the interpolated reference date is the right
operand), computed by the database per row. -/
def select_age (st : Store) (refdate : Int) : List (ViewTracker × Int) :=
  st.map fun r => (r, r.first_view - refdate)

/-- The queryset `order_by` call on the descending last_view column: rows
sorted by `last_view` descending. -/
def order_by_last_view_desc (st : Store) : Store :=
  st.mergeSort fun a b => b.last_view ≤ a.last_view

/-- Django's `QuerySet` has no attribute named `limit` (limiting is done by
slicing the queryset), so the attribute access `.limit` raises
`AttributeError` before any query runs.  (Modelled from Django's QuerySet
API, which is external to this repository.) -/
def querySetLimitAttr (_qs : Store) (_n : Nat) : Except DjangoError Store :=
  .error (.attributeError "limit")

/-- `ViewTrackerManager.get_recently_viewed(limit)`: order by descending
last_view, then call the (nonexistent) limit method on the queryset. -/
def get_recently_viewed (st : Store) (limit : Nat) : Except DjangoError Store :=
  querySetLimitAttr (order_by_last_view_desc st) limit

/-- `ViewTrackerManager.get_for_models(models)`: collect the content type of
each model, then `filter(content_type__in=cts)`. -/
def get_for_models (ctOf : Model → Nat) (st : Store) (ms : List Model) : Store :=
  let cts := ms.map ctOf
  st.filter fun r => cts.contains r.content_type

/-- `ViewTrackerManager.get_for_model(model)`: delegates to
`get_for_models([model])`. -/
def get_for_model (ctOf : Model → Nat) (st : Store) (m : Model) : Store :=
  get_for_models ctOf st [m]

/-- The WHERE predicate accumulated by `get_for_objects`: starts from
`self.none()` (matches nothing) and ORs in
`filter(content_type=ct, object_id=obj.pk)` per object.  An object is
represented by its model together with its primary key. -/
def get_for_objects_pred (ctOf : Model → Nat) (objs : List (Model × Nat)) :
    ViewTracker → Bool :=
  objs.foldl (fun qs obj => fun r => qs r || sameKey (ctOf obj.1) obj.2 r) (fun _ => false)

/-- `ViewTrackerManager.get_for_objects(objects)`: evaluating the accumulated
OR-queryset against the table. -/
def get_for_objects (ctOf : Model → Nat) (st : Store) (objs : List (Model × Nat)) : Store :=
  st.filter (get_for_objects_pred ctOf objs)

/-- The default row ordering from `Meta.ordering` (views, then descending
last_view, then first_view): ascending `views`, then descending `last_view`,
then ascending `first_view`. -/
def defaultLE (a b : ViewTracker) : Bool :=
  decide (a.views < b.views ∨ (a.views = b.views ∧
    (b.last_view < a.last_view ∨ (a.last_view = b.last_view ∧ a.first_view ≤ b.first_view))))

/-- A multi-record query without an explicit `order_by` returns rows in the
`Meta.ordering` order. -/
def defaultOrdered (st : Store) : Store :=
  st.mergeSort defaultLE

/-- `add_view_for` iterated: `n` sequential calls for the same object. -/
def add_views_n (st : Store) (ct oid : Nat) (now : Int) : Nat → Except DjangoError Store
  | 0 => .ok st
  | n + 1 =>
    match add_views_n st ct oid now n with
    | .ok st' =>
      match add_view_for st' ct oid now with
      | .ok (_, st'') => .ok st''
      | .error e => .error e
    | .error e => .error e

/-- The composite key of a row. -/
def keyOf (r : ViewTracker) : Nat × Nat := (r.content_type, r.object_id)

/-- The uniqueness invariant: no two rows share the composite key. -/
def keysNodup (st : Store) : Prop := (st.map keyOf).Nodup

/-- The store transitions the operations perform: `get_or_create` inserts a
fresh row when none matches (the only insertion in the source), and `save`
rewrites the rows matching the key of the saved instance (this covers
`increment` and hence `add_view_for`; read-only queries do not change the
store). -/
inductive Step : Store → Store → Prop where
  | create (st : Store) (ct oid : Nat) (now : Int)
      (h : st.filter (sameKey ct oid) = []) :
      Step st (st ++ [newTracker ct oid now])
  | save (st : Store) (r : ViewTracker) (now : Int) :
      Step st (r.save st now)

/-- Stores reachable from the empty table by the operations of the store. -/
inductive Reachable : Store → Prop where
  | init : Reachable []
  | step {st st' : Store} (h : Reachable st) (hs : Step st st') : Reachable st'

/-! ### Theorems -/

/-- C5: for refdate at or after first_view, `get_age` returns exactly
refdate - first_view; for refdate before first_view it fails with the
assertion error (the InvalidArgument-style failure), never a negative or
clamped duration. -/
theorem get_age_spec (r : ViewTracker) (refdate : Int) :
    (r.first_view ≤ refdate → r.get_age refdate = .ok (refdate - r.first_view)) ∧
    (refdate < r.first_view → r.get_age refdate = .error .assertionError) := by
  constructor
  · intro h
    simp [ViewTracker.get_age, h]
  · intro h
    simp [ViewTracker.get_age, not_le.mpr h]

/-- Witness for C5 at a concrete record with first_view = 3: refdate 5 yields
age 2, refdate 1 fails the assertion. -/
theorem get_age_spec_witness :
    (⟨1, 2, 3, 3, 0⟩ : ViewTracker).get_age 5 = .ok 2 ∧
    (⟨1, 2, 3, 3, 0⟩ : ViewTracker).get_age 1 = .error .assertionError :=
  ⟨(get_age_spec ⟨1, 2, 3, 3, 0⟩ 5).1 (by decide),
   (get_age_spec ⟨1, 2, 3, 3, 0⟩ 1).2 (by decide)⟩

/-- C2 (code bug): the age annotation produced by `select_age` has its
operands reversed.  On a row with first_view = 5 and refdate = 8 the query
annotates age = first_view - refdate = -3, whereas the claimed value
refdate - first_view is 3. -/
theorem select_age_operands_reversed :
    select_age [⟨1, 2, 5, 5, 0⟩] 8 = [(⟨1, 2, 5, 5, 0⟩, -3)] ∧
    (8 : Int) - 5 = 3 ∧ (-3 : Int) ≠ 3 :=
  ⟨rfl, rfl, by decide⟩

/-- C3 (code bug): `get_recently_viewed` calls the nonexistent queryset
method named limit, so on a store of three rows with distinct last_view
timestamps and limit 2 it raises `AttributeError` instead of returning the
two most recent rows. -/
theorem get_recently_viewed_raises :
    get_recently_viewed [⟨1, 2, 0, 1, 3⟩, ⟨1, 3, 0, 2, 4⟩, ⟨1, 4, 0, 3, 5⟩] 2 =
      .error (.attributeError "limit") := rfl

/-- C4: `get_views_for` returns 0 when no row matches the ref and the stored
views value when one row matches, and in both cases the store is returned
unchanged (the call never creates a record). -/
theorem get_views_for_spec (st : Store) (ct oid : Nat) :
    (st.filter (sameKey ct oid) = [] → get_views_for st ct oid = .ok (0, st)) ∧
    (∀ r, st.filter (sameKey ct oid) = [r] → get_views_for st ct oid = .ok (r.views, st)) := by
  constructor
  · intro h
    simp [get_views_for, get_for_object, managerGet, h]
  · intro r h
    simp [get_views_for, get_for_object, managerGet, h]

/-- Witness for C4 on the one-row store with key (1, 2) and views 7: the
absent ref (1, 3) yields 0, the present ref yields 7, the store unchanged. -/
theorem get_views_for_spec_witness :
    get_views_for [⟨1, 2, 0, 0, 7⟩] 1 3 = .ok (0, [⟨1, 2, 0, 0, 7⟩]) ∧
    get_views_for [⟨1, 2, 0, 0, 7⟩] 1 2 = .ok (7, [⟨1, 2, 0, 0, 7⟩]) :=
  ⟨(get_views_for_spec [⟨1, 2, 0, 0, 7⟩] 1 3).1 (by decide),
   (get_views_for_spec [⟨1, 2, 0, 0, 7⟩] 1 2).2 ⟨1, 2, 0, 0, 7⟩ (by decide)⟩

/-- C10: the single-model query delegates to the multi-model query on the
singleton list, and both return exactly the rows whose content type is the
content type of the model. -/
theorem get_for_model_refines (ctOf : Model → Nat) (st : Store) (m : Model) :
    get_for_model ctOf st m = get_for_models ctOf st [m] ∧
    ∀ r, r ∈ get_for_model ctOf st m ↔ r ∈ st ∧ r.content_type = ctOf m := by
  refine ⟨rfl, fun r => ?_⟩
  simp [get_for_model, get_for_models, List.mem_filter]

/-- The interleaving of two concurrent increments on the same object that the
read-modify-write in the source permits: both requests fetch their in-memory
instance (via `get_for_object` with create) before either runs `increment`;
each `increment` then computes views + 1 from its own stale instance and
saves. -/
def two_interleaved_increments (st : Store) (ct oid : Nat) (now1 now2 : Int) :
    Except DjangoError Store :=
  match get_for_object st ct oid true now1 with
  | .ok (s1, sta) =>
    match get_for_object sta ct oid true now2 with
    | .ok (s2, stb) =>
      let stc := (s1.increment stb now1).2
      .ok (s2.increment stc now2).2
    | .error e => .error e
  | .error e => .error e

/-- C1 (code bug): `increment` is a naive read-modify-write, so two
concurrent increments on the same ref, both fetching before either saves,
leave views = 1 rather than the claimed 2 — one update is lost. -/
theorem increment_lost_update :
    two_interleaved_increments [] 1 2 5 6 = .ok [⟨1, 2, 5, 6, 1⟩] ∧ (1 : Nat) ≠ 2 :=
  ⟨rfl, by decide⟩

lemma defaultLE_trans (a b c : ViewTracker) :
    defaultLE a b → defaultLE b c → defaultLE a c := by
  simp only [defaultLE, decide_eq_true_eq]
  omega

lemma defaultLE_total (a b : ViewTracker) : defaultLE a b || defaultLE b a := by
  simp only [defaultLE, Bool.or_eq_true, decide_eq_true_eq]
  omega

/-- Record A of the ordering scenario: views 5, last_view t2. -/
def recA : ViewTracker := ⟨1, 1, 0, 2, 5⟩

/-- Record B of the ordering scenario: views 5, last_view t1. -/
def recB : ViewTracker := ⟨1, 2, 0, 1, 5⟩

/-- Record C of the ordering scenario: views 3, last_view t3. -/
def recC : ViewTracker := ⟨1, 3, 0, 3, 3⟩

/-- C7: a multi-record query without an explicit order request returns a
permutation of the rows that is pairwise ordered by ascending views, then
descending last_view, then ascending first_view; on the scenario rows the
result is [C, A, B]. -/
theorem default_ordering_spec :
    (∀ st : Store, (defaultOrdered st).Perm st ∧
      (defaultOrdered st).Pairwise fun a b => defaultLE a b = true) ∧
    defaultOrdered [recA, recB, recC] = [recC, recA, recB] := by
  refine ⟨fun st => ⟨List.mergeSort_perm st defaultLE,
    List.sorted_mergeSort defaultLE_trans defaultLE_total st⟩, ?_⟩
  simp [defaultOrdered, recA, recB, recC, List.mergeSort, List.merge, defaultLE]

lemma get_for_objects_pred_foldl (ctOf : Model → Nat) (objs : List (Model × Nat))
    (acc : ViewTracker → Bool) (r : ViewTracker) :
    (objs.foldl (fun qs obj => fun x => qs x || sameKey (ctOf obj.1) obj.2 x) acc) r =
      (acc r || objs.any fun p => sameKey (ctOf p.1) p.2 r) := by
  induction objs generalizing acc with
  | nil => simp
  | cons o os ih => simp [List.foldl_cons, ih, Bool.or_assoc]

lemma get_for_objects_pred_eq_any (ctOf : Model → Nat) (objs : List (Model × Nat))
    (r : ViewTracker) :
    get_for_objects_pred ctOf objs r = objs.any fun p => sameKey (ctOf p.1) p.2 r := by
  simp [get_for_objects_pred, get_for_objects_pred_foldl]

/-- C8: the batch lookup returns the empty list on an empty ref sequence, its
members are exactly the stored rows matching at least one given ref, and it
introduces no duplicates (a duplicate-free store yields a duplicate-free
result even when the refs overlap). -/
theorem get_for_objects_spec (ctOf : Model → Nat) (st : Store) (objs : List (Model × Nat)) :
    (objs = [] → get_for_objects ctOf st objs = []) ∧
    (∀ r, r ∈ get_for_objects ctOf st objs ↔
      r ∈ st ∧ ∃ p ∈ objs, r.content_type = ctOf p.1 ∧ r.object_id = p.2) ∧
    (st.Nodup → (get_for_objects ctOf st objs).Nodup) := by
  refine ⟨?_, ?_, ?_⟩
  · rintro rfl
    exact List.filter_false st
  · intro r
    rw [get_for_objects, List.mem_filter, get_for_objects_pred_eq_any]
    simp only [List.any_eq_true, sameKey, Bool.and_eq_true, beq_iff_eq]
  · intro h
    exact h.filter _

lemma not_sameKey_of_filter_nil {st : Store} {ct oid : Nat}
    (h : st.filter (sameKey ct oid) = []) :
    ∀ x ∈ st, sameKey ct oid x = false := by
  intro x hx
  have := List.filter_eq_nil_iff.mp h x hx
  simpa using this

lemma save_untouched {st : Store} {ct oid : Nat}
    (h : ∀ x ∈ st, sameKey ct oid x = false) (s : ViewTracker)
    (hct : s.content_type = ct) (hoid : s.object_id = oid) (now : Int) :
    s.save st now = st := by
  rw [ViewTracker.save]
  have : ∀ x ∈ st,
      (if sameKey s.content_type s.object_id x then { s with last_view := now } else x) =
        id x := by
    intro x hx
    rw [hct, hoid, h x hx]
    simp
  rw [List.map_congr_left this, List.map_id]

lemma save_append_one {st : Store} {ct oid : Nat}
    (h : ∀ x ∈ st, sameKey ct oid x = false) (s r : ViewTracker)
    (hct : s.content_type = ct) (hoid : s.object_id = oid)
    (hr : sameKey ct oid r = true) (now : Int) :
    s.save (st ++ [r]) now = st ++ [{ s with last_view := now }] := by
  rw [ViewTracker.save, List.map_append]
  rw [← ViewTracker.save]
  rw [save_untouched h s hct hoid now]
  simp [hct, hoid, hr]

lemma add_view_for_fresh (st : Store) (ct oid : Nat) (now : Int)
    (h : st.filter (sameKey ct oid) = []) :
    add_view_for st ct oid now =
      .ok (⟨ct, oid, now, now, 1⟩, st ++ [⟨ct, oid, now, now, 1⟩]) := by
  have hn : ∀ x ∈ st, sameKey ct oid x = false := not_sameKey_of_filter_nil h
  rw [add_view_for, get_for_object, if_pos rfl, get_or_create, managerGet, h]
  have hsave := save_append_one hn ⟨ct, oid, now, now, 1⟩ (newTracker ct oid now) rfl rfl
    (by simp [sameKey, newTracker]) now
  simp only [ViewTracker.increment, newTracker] at hsave ⊢
  rw [hsave]

lemma add_view_for_existing (st : Store) (ct oid : Nat) (now fv lv : Int) (k : Nat)
    (h : st.filter (sameKey ct oid) = []) :
    add_view_for (st ++ [⟨ct, oid, fv, lv, k⟩]) ct oid now =
      .ok (⟨ct, oid, fv, now, k + 1⟩, st ++ [⟨ct, oid, fv, now, k + 1⟩]) := by
  have hn : ∀ x ∈ st, sameKey ct oid x = false := not_sameKey_of_filter_nil h
  have hkey : sameKey ct oid (⟨ct, oid, fv, lv, k⟩ : ViewTracker) = true := by
    simp [sameKey]
  have hfilter : (st ++ [(⟨ct, oid, fv, lv, k⟩ : ViewTracker)]).filter (sameKey ct oid) =
      [⟨ct, oid, fv, lv, k⟩] := by
    rw [List.filter_append, h]
    simp [hkey]
  rw [add_view_for, get_for_object, if_pos rfl, get_or_create, managerGet, hfilter]
  have hsave := save_append_one hn ⟨ct, oid, fv, lv, k + 1⟩ ⟨ct, oid, fv, lv, k⟩ rfl rfl
    hkey now
  simp only [ViewTracker.increment] at hsave ⊢
  rw [hsave]

/-- C6: starting from a store with no record for the ref, N + 1 sequential
`add_view_for` calls yield the store extended with a single record for that
ref whose views counter equals N + 1. -/
theorem add_view_for_n_times (st : Store) (ct oid : Nat) (now : Int) (n : Nat)
    (h : st.filter (sameKey ct oid) = []) :
    add_views_n st ct oid now (n + 1) = .ok (st ++ [⟨ct, oid, now, now, n + 1⟩]) := by
  induction n with
  | zero =>
    rw [add_views_n, add_views_n]
    simp only [add_view_for_fresh st ct oid now h]
  | succ k ih =>
    rw [add_views_n, ih]
    simp only [add_view_for_existing st ct oid now now now (k + 1) h]

/-- Witness for C6: from the empty store, two calls for ref (1, 2) at time 3
produce exactly one record with views = 2. -/
theorem add_view_for_n_times_witness :
    add_views_n [] 1 2 3 2 = .ok [⟨1, 2, 3, 3, 2⟩] :=
  add_view_for_n_times [] 1 2 3 1 rfl

lemma keyOf_eq_of_sameKey {ct oid : Nat} {x : ViewTracker} (h : sameKey ct oid x = true) :
    keyOf x = (ct, oid) := by
  simp only [sameKey, Bool.and_eq_true, beq_iff_eq] at h
  simp [keyOf, h.1, h.2]

lemma keyOf_save_map (r : ViewTracker) (st : Store) (now : Int) :
    (r.save st now).map keyOf = st.map keyOf := by
  rw [ViewTracker.save, List.map_map]
  refine List.map_congr_left ?_
  intro x hx
  by_cases hk : sameKey r.content_type r.object_id x = true
  · have h2 : x.content_type = r.content_type ∧ x.object_id = r.object_id := by
      simpa [sameKey] using hk
    simp [Function.comp, hk, keyOf, h2.1, h2.2]
  · simp [Function.comp, hk]

lemma reachable_keysNodup {st : Store} (h : Reachable st) : keysNodup st := by
  induction h with
  | init => simp [keysNodup]
  | step h hs ih =>
    cases hs with
    | create ct oid now hfil =>
      have hn := not_sameKey_of_filter_nil hfil
      rw [keysNodup, List.map_append]
      refine List.Nodup.append ih (by simp) ?_
      intro a ha hb
      simp only [newTracker, List.map_cons, List.map_nil, List.mem_singleton, keyOf] at hb
      obtain ⟨x, hx, hkx⟩ := List.mem_map.mp ha
      have hfalse := hn x hx
      simp only [sameKey, Bool.and_eq_true, beq_iff_eq, Bool.and_eq_false_iff,
        beq_eq_false_iff_ne, ne_eq] at hfalse
      rw [hb] at hkx
      rw [keyOf, Prod.mk.injEq] at hkx
      rcases hfalse with h1 | h2
      · exact h1 hkx.1
      · exact h2 hkx.2
    | save r now =>
      rw [keysNodup, keyOf_save_map]
      exact ih

lemma filter_key_nil_or_singleton {st : Store} (hnd : keysNodup st) (ct oid : Nat) :
    st.filter (sameKey ct oid) = [] ∨ ∃ r, st.filter (sameKey ct oid) = [r] := by
  cases hfil : st.filter (sameKey ct oid) with
  | nil => exact .inl rfl
  | cons a t =>
    cases t with
    | nil => exact .inr ⟨a, rfl⟩
    | cons b t2 =>
      exfalso
      have hsub : List.Sublist ((st.filter (sameKey ct oid)).map keyOf) (st.map keyOf) :=
        List.Sublist.map keyOf (List.filter_sublist st)
      have hnd2 : ((st.filter (sameKey ct oid)).map keyOf).Nodup :=
        List.Nodup.sublist hsub hnd
      have hmem : ∀ x ∈ st.filter (sameKey ct oid), sameKey ct oid x = true :=
        fun x hx => (List.mem_filter.mp hx).2
      have ha : keyOf a = (ct, oid) :=
        keyOf_eq_of_sameKey (hmem a (by rw [hfil]; simp))
      have hb : keyOf b = (ct, oid) :=
        keyOf_eq_of_sameKey (hmem b (by rw [hfil]; simp))
      rw [hfil] at hnd2
      simp only [List.map_cons, List.nodup_cons, List.mem_cons] at hnd2
      exact hnd2.1 (.inl (ha.trans hb.symm))

lemma get_or_create_stable {st : Store} (hnd : keysNodup st) (ct oid : Nat) (now : Int) :
    ∃ r created st', get_or_create st ct oid now = .ok ((r, created), st') ∧
      get_or_create st' ct oid now = .ok ((r, false), st') := by
  rcases filter_key_nil_or_singleton hnd ct oid with hfil | ⟨a, hfil⟩
  · refine ⟨newTracker ct oid now, true, st ++ [newTracker ct oid now], ?_, ?_⟩
    · rw [get_or_create, managerGet, hfil]
    · have hfil2 : (st ++ [newTracker ct oid now]).filter (sameKey ct oid) =
          [newTracker ct oid now] := by
        rw [List.filter_append, hfil]
        simp [sameKey, newTracker]
      rw [get_or_create, managerGet, hfil2]
  · refine ⟨a, false, st, ?_, ?_⟩ <;> rw [get_or_create, managerGet, hfil]

/-- C9: in every state reachable by the store operations no two rows share
the composite (content_type, object_id) key, and `get_or_create` called twice
for the same ref succeeds both times, returns the same record both times, and
the second call creates nothing (created = false, store unchanged). -/
theorem unique_key_invariant (st : Store) (ct oid : Nat) (now : Int) (h : Reachable st) :
    keysNodup st ∧
    ∃ r created st', get_or_create st ct oid now = .ok ((r, created), st') ∧
      get_or_create st' ct oid now = .ok ((r, false), st') :=
  ⟨reachable_keysNodup h, get_or_create_stable (reachable_keysNodup h) ct oid now⟩

/-- Witness for C9 at the empty (reachable) store and ref (1, 2). -/
theorem unique_key_invariant_witness :
    keysNodup [] ∧
    ∃ r created st', get_or_create [] 1 2 0 = .ok ((r, created), st') ∧
      get_or_create st' 1 2 0 = .ok ((r, false), st') :=
  unique_key_invariant [] 1 2 0 Reachable.init

/-- Witness for C8 on the one-row store with key (1, 2): the empty ref list
yields nothing, overlapping refs yield the row without duplication, and the
result is duplicate-free. -/
theorem get_for_objects_spec_witness :
    get_for_objects (fun m => m) [⟨1, 2, 0, 0, 4⟩] [] = [] ∧
    (⟨1, 2, 0, 0, 4⟩ : ViewTracker) ∈
      get_for_objects (fun m => m) [⟨1, 2, 0, 0, 4⟩] [(1, 2), (1, 2)] ∧
    (get_for_objects (fun m => m) [⟨1, 2, 0, 0, 4⟩] [(1, 2), (1, 2)]).Nodup :=
  ⟨(get_for_objects_spec (fun m => m) [⟨1, 2, 0, 0, 4⟩] []).1 rfl,
   ((get_for_objects_spec (fun m => m) [⟨1, 2, 0, 0, 4⟩] [(1, 2), (1, 2)]).2.1
      ⟨1, 2, 0, 0, 4⟩).mpr ⟨by simp, (1, 2), by simp⟩,
   (get_for_objects_spec (fun m => m) [⟨1, 2, 0, 0, 4⟩] [(1, 2), (1, 2)]).2.2
     (by simp)⟩

end Popularity
